/-
Verification of the crypto-predict streaming pipeline domain model.

Shallow embedding of the Python sources:
  - src/libs/domain/domain/trades.py
  - src/libs/domain/domain/news.py
  - src/libs/domain/domain/candles.py
  - src/libs/domain/domain/sentiment_analysis.py
  - src/services/ta/ta/stream.py, src/services/ta/ta/core/settings.py
  - src/services/trades/trades/exchanges/kraken.py
  - src/services/news/news/outlets/cryptopanic.py

Python floats are embedded as exact rationals (ℚ); millisecond /
nanosecond timestamps as integers / naturals.  Stateful loops are
embedded as fuel-indexed recursive functions returning `Option`
(`none` = the fuel ran out before the loop's own exit condition fired).
-/
import Mathlib

namespace CryptoPredict

/-! ### domain/trades.py -/

/-- `TradesIngestionMode` enum (trades.py). -/
inductive TradesIngestionMode where
  | LIVE
  | HISTORICAL
deriving DecidableEq, Repr

/-- `TradesIngestionMode.to_auto_reset_offset_mode` (trades.py lines 17-23):
`LIVE → "earliest"`, `HISTORICAL → "latest"`. -/
def TradesIngestionMode.to_auto_reset_offset_mode : TradesIngestionMode → String
  | .LIVE => "earliest"
  | .HISTORICAL => "latest"

/-- `Exchange` enum (trades.py). -/
inductive Exchange where
  | KRAKEN | BINANCE | BYBIT | BITMEX | BITFINEX
  | BITGET | BITSTAMP | BITTREX | COINBASE | GEMINI
deriving DecidableEq, Repr

/-- `Asset.values()` (trades.py): the allowed asset set, as enum values. -/
def Asset.values : List String :=
  ["BTC", "ETH", "XRP", "XLM", "BNB", "SOL", "DOGE", "ADA",
   "LTC", "BCH", "DOT", "XMR", "EOS", "XEM", "ZEC", "ETC"]

/-- `Symbol` enum (trades.py). -/
inductive Symbol where
  | XRPUSD | XLMUSD | BTCUSD | ETHUSD
  | BTCEUR | XRPEUR | XLMEUR | ETHEUR
deriving DecidableEq, Repr

/-- `Trade` (trades.py): price/volume are Python floats, embedded as ℚ;
timestamp in milliseconds. -/
structure Trade where
  symbol : Symbol
  price : ℚ
  volume : ℚ
  timestamp : ℤ
  exchange : Exchange
deriving DecidableEq, Repr

/-! ### domain/news.py -/

/-- `NewsIngestionMode` enum (news.py). -/
inductive NewsIngestionMode where
  | LIVE
  | HISTORICAL
deriving DecidableEq, Repr

/-- `NewsIngestionMode.to_auto_reset_offset_mode` (news.py lines 21-27):
`LIVE → "earliest"`, `HISTORICAL → "latest"`. -/
def NewsIngestionMode.to_auto_reset_offset_mode : NewsIngestionMode → String
  | .LIVE => "earliest"
  | .HISTORICAL => "latest"

/-- `NewsStory` (news.py).  `published_at` is an ISO-8601 string whose
lexicographic order agrees with chronological order; it is embedded as ℕ
carrying that order.  `outlet` has a single member and is omitted. -/
structure NewsStory where
  title : String
  source : String
  published_at : ℕ
  url : String
  timestamp : ℕ
deriving DecidableEq, Repr

/-! ### domain/candles.py -/

/-- `CandleTimeframe` enum (candles.py). -/
inductive CandleTimeframe where
  | tf_1m | tf_5m | tf_15m | tf_30m | tf_1h | tf_4h | tf_1D | tf_1W | tf_1M
deriving DecidableEq, Repr

/-- `CandleTimeframe.to_sec` (candles.py lines 23-43). -/
def CandleTimeframe.to_sec : CandleTimeframe → ℤ
  | .tf_1m => 60 * 1
  | .tf_5m => 60 * 5
  | .tf_15m => 60 * 15
  | .tf_30m => 60 * 30
  | .tf_1h => 60 * 60 * 1
  | .tf_4h => 60 * 60 * 4
  | .tf_1D => 60 * 60 * 24
  | .tf_1W => 60 * 60 * 24 * 7
  | .tf_1M => 60 * 60 * 24 * 30

/-- `Candle` / `CandleProps` (candles.py): OHLCV floats as ℚ, timestamps in
milliseconds, window bounds optional (`None` until the window is closed). -/
structure Candle where
  symbol : Symbol
  timeframe : CandleTimeframe
  exchange : Exchange
  «open» : ℚ
  high : ℚ
  low : ℚ
  close : ℚ
  volume : ℚ
  timestamp : ℤ
  start : Option ℤ := none
  «end» : Option ℤ := none
deriving DecidableEq, Repr

/-- `Candle.init` (candles.py lines 90-112): initialize a candle from the
first trade, using it as the open price. -/
def Candle.init (timeframe : CandleTimeframe) (first_trade : Trade) : Candle :=
  { symbol := first_trade.symbol
    timeframe := timeframe
    exchange := first_trade.exchange
    «open» := first_trade.price
    high := first_trade.price
    low := first_trade.price
    close := first_trade.price
    volume := first_trade.volume
    timestamp := first_trade.timestamp }

/-- `Candle.close_window` (candles.py lines 114-118): set the window bounds. -/
def Candle.close_window (c : Candle) (start «end» : ℤ) : Candle :=
  { c with start := some start, «end» := some «end» }

/-- `Candle.update` (candles.py lines 120-133): fold one trade into the
candle. -/
def Candle.update (c : Candle) (trade : Trade) : Candle :=
  { c with
    high := max c.high trade.price
    low := min c.low trade.price
    close := trade.price
    volume := c.volume + trade.volume
    timestamp := trade.timestamp }

/-- `Candle.is_compatible` (candles.py lines 135-144): same symbol and
timeframe; `None` is never compatible. -/
def Candle.is_compatible (c : Candle) (other : Option Candle) : Bool :=
  match other with
  | none => false
  | some o => c.symbol = o.symbol && c.timeframe = o.timeframe

/-- `Candle.is_same_window` (candles.py lines 146-158): compatible and same
start/end bounds. -/
def Candle.is_same_window (c : Candle) (other : Option Candle) : Bool :=
  match other with
  | none => false
  | some o => c.is_compatible (some o) && c.start = o.start && c.«end» = o.«end»

/-! ### domain/sentiment_analysis.py -/

/-- `SentimentSignal` enum (sentiment_analysis.py). -/
inductive SentimentSignal where
  | BULLISH
  | BEARISH
deriving DecidableEq, Repr

/-- `SentimentSignal.values()` (sentiment_analysis.py lines 22-24). -/
def SentimentSignal.values : List String := ["BULLISH", "BEARISH"]

/-- Python's `s in SentimentSignal` membership test for a `str`-valued enum:
true iff `s` is the value of some member. -/
def SentimentSignal.hasValue (s : String) : Bool := SentimentSignal.values.contains s

/-- `AssetSentimentAnalysisDetails` (sentiment_analysis.py lines 27-49):
both fields are plain strings (the asset set and label set are only
described to the LLM in the field descriptions). -/
structure AssetSentimentAnalysisDetails where
  asset : String
  sentiment : String
deriving DecidableEq, Repr

/-- `NewsStorySentimentAnalysis.validate_sentiments_and_remove_invalid`
(sentiment_analysis.py lines 58-70): keeps exactly the entries whose
`sentiment` is a member value of `SentimentSignal`; the `asset` field is
not inspected. -/
def validate_sentiments_and_remove_invalid
    (asset_sentiments : List AssetSentimentAnalysisDetails) :
    List AssetSentimentAnalysisDetails :=
  asset_sentiments.filter (fun a => SentimentSignal.hasValue a.sentiment)

/-! ### services/ta/ta/core/settings.py and services/ta/ta/stream.py -/

/-- `Settings.max_candles_in_state` default (settings.py line 21). -/
def max_candles_in_state_default : ℕ := 60

/-- `update_state_with_latest` (stream.py lines 84-124), with the candle
state embedded directly as a list of candles (the Python code stores their
dict form) and `MAX_CANDLES_IN_STATE` as the parameter `N`.
If the latest candle is in the same window as the last buffered candle it
replaces it, otherwise it is appended; then, if the buffer exceeds `N`,
the oldest candle is popped from the front. -/
def update_state_with_latest (N : ℕ) (latest : Candle)
    (candles_state : List Candle) : List Candle :=
  let cs :=
    if latest.is_same_window candles_state.getLast? then
      candles_state.dropLast ++ [latest]
    else
      candles_state ++ [latest]
  if N < cs.length then cs.drop 1 else cs

/-- The parameter names of `TechnicalAnalysis.calc` (ta.py lines 445-453):
`calc(cls, candle, high, low, close, volume)`; all are required (no
defaults) and there is no `**kwargs`. -/
def TechnicalAnalysis.calc_params : List String :=
  ["candle", "high", "low", "close", "volume"]

/-- The keyword names used at the call site of `TechnicalAnalysis.calc`
inside `do_ta_for_latest` (stream.py lines 131-137). -/
def do_ta_for_latest_call_kwargs : List String :=
  ["candle", "high_values", "low_values", "close_values", "volume_values"]

/-- Python keyword-argument binding for a function without default values
and without `**kwargs`: the call binds (does not raise `TypeError`) iff
every keyword names a declared parameter and every parameter receives an
argument. -/
def python_kwargs_bind (params kwargs : List String) : Bool :=
  kwargs.all (fun k => params.contains k) && params.all (fun p => kwargs.contains p)

/-! ### services/trades/trades/exchanges/kraken.py -/

/-- One step of `KrakenTradesRestClient.fetch_all_trades` (kraken.py lines
204-250), abstracted over the exchange: `fetch since = (last, trades)` is
the pair extracted from the API response for cursor `since`.
The loop body is `last, trades = fetch_trades(symbol, last)`, then the
trades are accumulated and the loop breaks iff `trades` is empty.  `fuel`
bounds the number of iterations; `none` means the loop did not exit within
`fuel` calls. -/
def fetch_all_trades (fetch : ℕ → ℕ × List Trade) :
    ℕ → ℕ → List Trade → Option (List Trade)
  | 0, _, _ => none
  | fuel + 1, last, fetched_trades =>
    let p := fetch last
    let acc := fetched_trades ++ p.2
    if p.2.isEmpty then some acc
    else fetch_all_trades fetch fuel p.1 acc

/-- Modelled from the spec: the paging loop as the specification describes
it — same cursor threading, but terminating exactly when the returned
cursor `last` reaches `stop_ns` (the wall clock captured at stream start),
a condition the code of `fetch_all_trades` does not implement. -/
def fetch_all_trades_spec_loop (fetch : ℕ → ℕ × List Trade) (stop_ns : ℕ) :
    ℕ → ℕ → List Trade → Option (List Trade)
  | 0, _, _ => none
  | fuel + 1, last, fetched_trades =>
    let p := fetch last
    let acc := fetched_trades ++ p.2
    if stop_ns ≤ p.1 then some acc
    else fetch_all_trades_spec_loop fetch stop_ns fuel p.1 acc

/-- The sequence of `since` cursors passed to the fetch function by
`fetch_all_trades`: the first call uses the initial `since`, every later
call uses the `last` cursor returned by the previous call. -/
def fetch_cursor (fetch : ℕ → ℕ × List Trade) (since : ℕ) : ℕ → ℕ
  | 0 => since
  | k + 1 => (fetch (fetch_cursor fetch since k)).1

/-! ### services/news/news/outlets/cryptopanic.py -/

/-- The possible outcomes of one HTTP fetch in
`CryptoPanicClient.get_news_batch` (cryptopanic.py lines 95-133):
a transport error raised by `requests.get`/`.json()`, a response with an
empty or missing `results` list, or a parsed page with its `next` URL
(the empty string standing for a falsy `next`). -/
inductive FetchOutcome where
  | transport_error
  | empty_or_malformed
  | ok (results : List NewsStory) (next : String)

/-- `CryptoPanicClient.get_news_batch` (cryptopanic.py lines 95-133) given
the outcome of its HTTP fetch: on a transport error it sleeps 1 s and
returns the empty batch with the *same* URL, on an empty/malformed
response it returns the empty batch with the same URL, otherwise the
parsed stories and the page's `next` URL. -/
def get_news_batch (url : String) (outcome : FetchOutcome) :
    List NewsStory × String :=
  match outcome with
  | .transport_error => ([], url)
  | .empty_or_malformed => ([], url)
  | .ok results next => if results.isEmpty then ([], url) else (results, next)

/-- The ascending-by-`published_at` ordering used by `sorted(stories,
key=lambda x: x.published_at)` (cryptopanic.py line 93). -/
def story_le (a b : NewsStory) : Prop := a.published_at ≤ b.published_at

instance : DecidableRel story_le := fun a b => Nat.decLe a.published_at b.published_at

instance : IsTotal NewsStory story_le :=
  ⟨fun a b => Nat.le_total a.published_at b.published_at⟩

instance : IsTrans NewsStory story_le :=
  ⟨fun _ _ _ hab hbc => Nat.le_trans hab hbc⟩

/-- `sorted(stories, key=lambda x: x.published_at, reverse=False)`
(cryptopanic.py line 93). -/
def sort_by_published_at (stories : List NewsStory) : List NewsStory :=
  List.insertionSort story_le stories

/-- `CryptoPanicClient.get_news` (cryptopanic.py lines 75-93): follow the
pagination until a batch is empty or there is no next URL, then return all
collected stories sorted ascending by `published_at`.  The fetch oracle is
indexed by the call number so that successive fetches of the same URL may
differ (a transient error followed by a success).  `fuel` bounds the
number of iterations. -/
def get_news (fetchOutcome : ℕ → String → FetchOutcome) :
    ℕ → ℕ → String → List NewsStory → Option (List NewsStory)
  | 0, _, _, _ => none
  | fuel + 1, call, url, stories =>
    let bn := get_news_batch url (fetchOutcome call url)
    let stories2 := stories ++ bn.1
    if bn.1.isEmpty || bn.2 = "" then some (sort_by_published_at stories2)
    else get_news fetchOutcome fuel (call + 1) bn.2 stories2

/-- One iteration of `CryptoPanicOutletLiveSource.run` (cryptopanic.py
lines 34-60), given the watermark `last` and the stories returned by
`client.get_news()` before sorting: keeps the stories published strictly
after `last` (all of them when `last` is `None`), publishes them in order,
and advances `last` to the `published_at` of the final published story
when the batch is non-empty.  Returns (published batch, new watermark). -/
def run_iteration (last : Option ℕ) (fetched : List NewsStory) :
    List NewsStory × Option ℕ :=
  let stories := sort_by_published_at fetched
  let published :=
    match last with
    | none => stories
    | some l => stories.filter (fun s => l < s.published_at)
  let new_last :=
    match published.getLast? with
    | some s => some s.published_at
    | none => last
  (published, new_last)

/-! ### Helper lemmas about folding trades into a candle -/

theorem foldl_update_open (ts : List Trade) (c : Candle) :
    (ts.foldl Candle.update c).«open» = c.«open» := by
  induction ts generalizing c with
  | nil => rfl
  | cons t ts ih => simp [List.foldl_cons, ih, Candle.update]

theorem foldl_update_high (ts : List Trade) (c : Candle) :
    (ts.foldl Candle.update c).high = (ts.map Trade.price).foldl max c.high := by
  induction ts generalizing c with
  | nil => rfl
  | cons t ts ih => simp [List.foldl_cons, ih, Candle.update]

theorem foldl_update_low (ts : List Trade) (c : Candle) :
    (ts.foldl Candle.update c).low = (ts.map Trade.price).foldl min c.low := by
  induction ts generalizing c with
  | nil => rfl
  | cons t ts ih => simp [List.foldl_cons, ih, Candle.update]

theorem foldl_update_volume (ts : List Trade) (c : Candle) :
    (ts.foldl Candle.update c).volume = c.volume + (ts.map Trade.volume).sum := by
  induction ts generalizing c with
  | nil => simp
  | cons t ts ih =>
    simp only [List.foldl_cons, ih, Candle.update, List.map_cons, List.sum_cons]
    ring

theorem foldl_update_close (ts : List Trade) (c : Candle) :
    (ts.foldl Candle.update c).close = (ts.map Trade.price).getLastD c.close := by
  induction ts generalizing c with
  | nil => rfl
  | cons t ts ih =>
    rw [List.foldl_cons, ih, List.map_cons, List.getLastD_cons]
    rfl

theorem foldl_update_timestamp (ts : List Trade) (c : Candle) :
    (ts.foldl Candle.update c).timestamp
      = (ts.map Trade.timestamp).getLastD c.timestamp := by
  induction ts generalizing c with
  | nil => rfl
  | cons t ts ih =>
    rw [List.foldl_cons, ih, List.map_cons, List.getLastD_cons]
    rfl

theorem getLastD_map {α β : Type} (f : α → β) (d : α) :
    ∀ l : List α, (l.map f).getLastD (f d) = f (l.getLastD d)
  | [] => rfl
  | a :: l => by
    rw [List.map_cons, List.getLastD_cons, List.getLastD_cons, getLastD_map f a l]

/-- C2: for a non-empty trade sequence `t1 :: ts`, the candle built by
`Candle.init` on `t1` followed by `Candle.update` on each element of `ts`
has `open` = first price, `close` = last price, `high`/`low` = max/min of
all prices, `volume` = sum of all volumes, and `timestamp` = the last
trade's timestamp. -/
theorem candle_init_update_fold (timeframe : CandleTimeframe) (t1 : Trade)
    (ts : List Trade) :
    (ts.foldl Candle.update (Candle.init timeframe t1)).«open» = t1.price ∧
    (ts.foldl Candle.update (Candle.init timeframe t1)).close
      = (ts.getLastD t1).price ∧
    (ts.foldl Candle.update (Candle.init timeframe t1)).high
      = (ts.map Trade.price).foldl max t1.price ∧
    (ts.foldl Candle.update (Candle.init timeframe t1)).low
      = (ts.map Trade.price).foldl min t1.price ∧
    (ts.foldl Candle.update (Candle.init timeframe t1)).volume
      = t1.volume + (ts.map Trade.volume).sum ∧
    (ts.foldl Candle.update (Candle.init timeframe t1)).timestamp
      = (ts.getLastD t1).timestamp := by
  refine ⟨foldl_update_open ts _, ?_, ?_, ?_, ?_, ?_⟩
  · rw [foldl_update_close]
    exact getLastD_map Trade.price t1 ts
  · exact foldl_update_high ts _
  · exact foldl_update_low ts _
  · exact foldl_update_volume ts _
  · rw [foldl_update_timestamp]
    exact getLastD_map Trade.timestamp t1 ts

/-- C9: folding two trades into a candle in either order yields the same
`high`, `low` and `volume` (and leaves `symbol`, `timeframe`, `exchange`,
`open`, `start`, `end` untouched); only `close` and `timestamp` are
order-sensitive. -/
theorem candle_update_comm (c : Candle) (t1 t2 : Trade) :
    ((c.update t1).update t2).high = ((c.update t2).update t1).high ∧
    ((c.update t1).update t2).low = ((c.update t2).update t1).low ∧
    ((c.update t1).update t2).volume = ((c.update t2).update t1).volume ∧
    ((c.update t1).update t2).symbol = ((c.update t2).update t1).symbol ∧
    ((c.update t1).update t2).timeframe = ((c.update t2).update t1).timeframe ∧
    ((c.update t1).update t2).exchange = ((c.update t2).update t1).exchange ∧
    ((c.update t1).update t2).«open» = ((c.update t2).update t1).«open» ∧
    ((c.update t1).update t2).start = ((c.update t2).update t1).start ∧
    ((c.update t1).update t2).«end» = ((c.update t2).update t1).«end» := by
  refine ⟨?_, ?_, ?_, rfl, rfl, rfl, rfl, rfl, rfl⟩
  · simpa [Candle.update] using Max.right_comm c.high t1.price t2.price
  · simpa [Candle.update] using min_right_comm c.low t1.price t2.price
  · simpa [Candle.update] using add_right_comm c.volume t1.volume t2.volume

/-- C10: `close_window` only writes the `start`/`end` bounds (every other
field is unchanged), and applying it twice with the same bounds gives an
identical candle. -/
theorem close_window_frame (c : Candle) (s e : ℤ) :
    (c.close_window s e).symbol = c.symbol ∧
    (c.close_window s e).timeframe = c.timeframe ∧
    (c.close_window s e).exchange = c.exchange ∧
    (c.close_window s e).«open» = c.«open» ∧
    (c.close_window s e).high = c.high ∧
    (c.close_window s e).low = c.low ∧
    (c.close_window s e).close = c.close ∧
    (c.close_window s e).volume = c.volume ∧
    (c.close_window s e).timestamp = c.timestamp ∧
    (c.close_window s e).start = some s ∧
    (c.close_window s e).«end» = some e ∧
    (c.close_window s e).close_window s e = c.close_window s e :=
  ⟨rfl, rfl, rfl, rfl, rfl, rfl, rfl, rfl, rfl, rfl, rfl, rfl⟩

/-- A concrete candle used to instantiate hypotheses at closed inputs. -/
def sample_candle : Candle :=
  { symbol := .BTCUSD
    timeframe := .tf_1m
    exchange := .KRAKEN
    «open» := 1
    high := 2
    low := 1
    close := 2
    volume := 3
    timestamp := 0 }

/-- Capping step: popping the front when the list exceeds `N` keeps the
length ≤ `N`, provided the list had length ≤ `N + 1`. -/
theorem bounded_after_cap (N : ℕ) (cs : List Candle) (h : cs.length ≤ N + 1) :
    (if N < cs.length then cs.drop 1 else cs).length ≤ N := by
  split
  next hlt => simp only [List.length_drop]; omega
  next hge => omega

/-- C8: one application of the TA operator's state update (replace on same
window, else append; pop the oldest when over capacity) keeps the buffered
candle list at length ≤ N. -/
theorem update_state_preserves_bound (N : ℕ) (latest : Candle)
    (st : List Candle) (h : st.length ≤ N) :
    (update_state_with_latest N latest st).length ≤ N := by
  have hb : (if latest.is_same_window st.getLast? then st.dropLast ++ [latest]
      else st ++ [latest]).length ≤ N + 1 := by
    split
    · simp only [List.length_append, List.length_dropLast, List.length_cons,
        List.length_nil]
      omega
    · simp only [List.length_append, List.length_cons, List.length_nil]
      omega
  exact bounded_after_cap N _ hb

/-- Closed instance of `update_state_preserves_bound` at the default
capacity (60) with an empty buffer and a concrete candle. -/
theorem update_state_preserves_bound_witness :
    ([] : List Candle).length ≤ max_candles_in_state_default ∧
    (update_state_with_latest max_candles_in_state_default sample_candle
        []).length ≤ max_candles_in_state_default :=
  ⟨by decide,
   update_state_preserves_bound max_candles_in_state_default sample_candle []
     (by decide)⟩

/-- C3: what `to_auto_reset_offset_mode` actually returns for both
ingestion-mode enums — `LIVE → "earliest"` and `HISTORICAL → "latest"`,
the opposite of the mapping the claim states. -/
theorem to_auto_reset_offset_mode_eval :
    TradesIngestionMode.to_auto_reset_offset_mode .LIVE = "earliest" ∧
    TradesIngestionMode.to_auto_reset_offset_mode .HISTORICAL = "latest" ∧
    NewsIngestionMode.to_auto_reset_offset_mode .LIVE = "earliest" ∧
    NewsIngestionMode.to_auto_reset_offset_mode .HISTORICAL = "latest" ∧
    ("earliest" : String) ≠ "latest" :=
  ⟨rfl, rfl, rfl, rfl, by decide⟩

/-- C1: the keyword arguments that `do_ta_for_latest` passes to
`TechnicalAnalysis.calc` do not bind to `calc`'s declared parameters
(`high_values` vs `high`, ...), so the call raises `TypeError` instead of
returning a `TechnicalAnalysis`. -/
theorem do_ta_for_latest_calc_call_does_not_bind :
    python_kwargs_bind TechnicalAnalysis.calc_params
      do_ta_for_latest_call_kwargs = false := by
  decide

/-- C5 counterexample: an entry whose asset `"USD"` is outside the allowed
asset set but whose sentiment is valid is kept by
`validate_sentiments_and_remove_invalid`, not dropped. -/
theorem validate_sentiments_keeps_foreign_asset :
    validate_sentiments_and_remove_invalid
        [{ asset := "USD", sentiment := "BULLISH" }]
      = [{ asset := "USD", sentiment := "BULLISH" }] ∧
    Asset.values.contains "USD" = false :=
  ⟨rfl, rfl⟩

/-- C5 amended: every entry of the validator's output comes from the input
and has a sentiment in {BULLISH, BEARISH}; the asset field is not
checked. -/
theorem validate_sentiments_sound (l : List AssetSentimentAnalysisDetails)
    (a : AssetSentimentAnalysisDetails)
    (h : a ∈ validate_sentiments_and_remove_invalid l) :
    a ∈ l ∧ (a.sentiment = "BULLISH" ∨ a.sentiment = "BEARISH") := by
  simp only [validate_sentiments_and_remove_invalid] at h
  have h2 := List.mem_filter.mp h
  refine ⟨h2.1, ?_⟩
  have h3 := h2.2
  simp only [SentimentSignal.hasValue, SentimentSignal.values] at h3
  simp at h3
  exact h3

/-- Closed instance of `validate_sentiments_sound` at a concrete
singleton input. -/
theorem validate_sentiments_sound_witness :
    ({ asset := "BTC", sentiment := "BULLISH" } : AssetSentimentAnalysisDetails)
        ∈ [({ asset := "BTC", sentiment := "BULLISH" } :
            AssetSentimentAnalysisDetails)] ∧
    (({ asset := "BTC", sentiment := "BULLISH" } :
        AssetSentimentAnalysisDetails).sentiment = "BULLISH" ∨
     ({ asset := "BTC", sentiment := "BULLISH" } :
        AssetSentimentAnalysisDetails).sentiment = "BEARISH") :=
  validate_sentiments_sound
    [{ asset := "BTC", sentiment := "BULLISH" }]
    { asset := "BTC", sentiment := "BULLISH" } (by decide)

/-! ### Kraken REST paging loop (C4) -/

theorem fetch_cursor_shift (fetch : ℕ → ℕ × List Trade) (since : ℕ) (k : ℕ) :
    fetch_cursor fetch (fetch since).1 k = fetch_cursor fetch since (k + 1) := by
  induction k with
  | zero => rfl
  | succ k ih => simp [fetch_cursor, ih]

/-- C4 amended: the paging loop threads the returned cursor `last` as the
next `since` (the `fetch_cursor` sequence) and returns normally within
`fuel` calls iff some call among the first `fuel` returns an empty trade
page — the loop terminates exactly on the first empty page, not on any
wall-clock bound. -/
theorem fetch_all_trades_stops_on_empty (fetch : ℕ → ℕ × List Trade)
    (fuel since : ℕ) (acc : List Trade) :
    (fetch_all_trades fetch fuel since acc).isSome ↔
      ∃ k < fuel, (fetch (fetch_cursor fetch since k)).2 = [] := by
  induction fuel generalizing since acc with
  | zero => simp [fetch_all_trades]
  | succ fuel ih =>
    rw [fetch_all_trades]
    by_cases he : (fetch since).2.isEmpty
    · simp only [he, if_true, Option.isSome_some, true_iff]
      exact ⟨0, Nat.succ_pos fuel,
        by simpa [fetch_cursor, List.isEmpty_iff] using he⟩
    · simp only [he, if_false, Bool.false_eq_true]
      rw [ih]
      constructor
      · rintro ⟨k, hk, hke⟩
        exact ⟨k + 1, by omega, by rwa [← fetch_cursor_shift]⟩
      · rintro ⟨k, hk, hke⟩
        cases k with
        | zero =>
          rw [fetch_cursor] at hke
          exact absurd (by simp [List.isEmpty_iff, hke]) he
        | succ k =>
          exact ⟨k, by omega, by rwa [fetch_cursor_shift]⟩

/-- A concrete trade for closed instances. -/
def sample_trade_a : Trade :=
  { symbol := .BTCUSD, price := 1, volume := 1, timestamp := 1, exchange := .KRAKEN }

def sample_trade_b : Trade :=
  { symbol := .BTCUSD, price := 2, volume := 1, timestamp := 2, exchange := .KRAKEN }

/-- A concrete exchange: cursor 0 yields page (last=100, one trade),
cursor 100 yields page (last=200, one trade), any other cursor yields an
empty page. -/
def kraken_pages_ce : ℕ → ℕ × List Trade :=
  fun since =>
    if since = 0 then (100, [sample_trade_a])
    else if since = 100 then (200, [sample_trade_b])
    else (200, [])

/-- C4 counterexample: with `stop_ns = 50`, the first page already returns
`last = 100 ≥ stop_ns`, so the loop the claim describes stops there with
one trade; the code's loop keeps fetching and also returns the second
page's trade, stopping only on the empty third page. -/
theorem fetch_all_trades_ignores_stop_ns :
    fetch_all_trades kraken_pages_ce 10 0 []
      = some [sample_trade_a, sample_trade_b] ∧
    fetch_all_trades_spec_loop kraken_pages_ce 50 10 0 []
      = some [sample_trade_a] ∧
    50 ≤ (kraken_pages_ce 0).1 ∧
    fetch_all_trades kraken_pages_ce 10 0 []
      ≠ fetch_all_trades_spec_loop kraken_pages_ce 50 10 0 [] := by
  refine ⟨rfl, rfl, by norm_num [kraken_pages_ce], ?_⟩
  show (some [sample_trade_a, sample_trade_b] : Option (List Trade))
      ≠ some [sample_trade_a]
  simp

/-! ### CryptoPanic live news source (C6, C7) -/

/-- A concrete news story builder for closed instances. -/
def sample_story (title : String) (published_at : ℕ) : NewsStory :=
  { title := title, source := "s", published_at := published_at,
    url := "u", timestamp := 0 }

/-- A concrete fetch oracle: the first call hits a transport error, every
later call returns one story and no next page. -/
def flaky_then_ok : ℕ → String → FetchOutcome :=
  fun call _ =>
    if call = 0 then .transport_error
    else .ok [sample_story "btc-etf" 7] ""

/-- C6: a transport error on the first page makes `get_news` end the
polling cycle with an empty batch — the loop breaks on the empty batch
returned by `get_news_batch` and never re-fetches the URL — although the
retry (the same cycle started at the next call index, same URL) would
have returned the story. -/
theorem get_news_ends_cycle_on_transport_error :
    get_news flaky_then_ok 10 0 "page1" [] = some [] ∧
    get_news flaky_then_ok 10 1 "page1" []
      = some [sample_story "btc-etf" 7] :=
  ⟨rfl, rfl⟩

/-- In a sorted list, the last element bounds every element. -/
theorem sorted_getLast_max :
    ∀ (l : List NewsStory), List.Sorted story_le l →
      ∀ m : NewsStory, l.getLast? = some m →
        ∀ t ∈ l, t.published_at ≤ m.published_at
  | [], _, m, hm => by simp at hm
  | [a], _, m, hm => by
    simp at hm
    subst hm
    intro t ht
    simp at ht
    subst ht
    exact le_refl _
  | a :: b :: l2, h, m, hm => by
    rw [List.getLast?_cons_cons] at hm
    intro t ht
    rcases List.mem_cons.mp ht with rfl | htl
    · have hmm : m ∈ b :: l2 := by
        obtain ⟨hne, rfl⟩ :=
          List.mem_getLast?_eq_getLast (Option.mem_def.mpr hm)
        exact List.getLast_mem hne
      exact (List.pairwise_cons.mp h).1 m hmm
    · exact sorted_getLast_max (b :: l2) h.of_cons m hm t htl

/-- The second component of `run_iteration` is determined by the last
element of its first component. -/
theorem run_iteration_snd (last : Option ℕ) (fetched : List NewsStory) :
    (run_iteration last fetched).2
      = match (run_iteration last fetched).1.getLast? with
        | some s => some s.published_at
        | none => last := rfl

/-- C7: when an iteration of the live source publishes a non-empty batch,
the new watermark is the `published_at` of some published story that
bounds the whole batch (its maximum), and every published story was
published strictly after the watermark held at the start of the
iteration. -/
theorem run_iteration_watermark (last : Option ℕ) (fetched : List NewsStory)
    (hne : (run_iteration last fetched).1 ≠ []) :
    (∃ s ∈ (run_iteration last fetched).1,
        (run_iteration last fetched).2 = some s.published_at ∧
        ∀ t ∈ (run_iteration last fetched).1,
          t.published_at ≤ s.published_at) ∧
    ∀ l, last = some l →
      ∀ s ∈ (run_iteration last fetched).1, l < s.published_at := by
  have hsorted : List.Sorted story_le (run_iteration last fetched).1 := by
    cases last with
    | none =>
      simpa [run_iteration, sort_by_published_at] using
        List.sorted_insertionSort story_le fetched
    | some l =>
      simp only [run_iteration, sort_by_published_at]
      exact (List.sorted_insertionSort story_le fetched).filter _
  obtain ⟨m, hm⟩ : ∃ m, (run_iteration last fetched).1.getLast? = some m := by
    cases hl : (run_iteration last fetched).1.getLast? with
    | none => exact absurd (List.getLast?_eq_none_iff.mp hl) hne
    | some m => exact ⟨m, rfl⟩
  have hm_mem : m ∈ (run_iteration last fetched).1 := by
    obtain ⟨hne2, rfl⟩ := List.mem_getLast?_eq_getLast (Option.mem_def.mpr hm)
    exact List.getLast_mem hne2
  refine ⟨⟨m, hm_mem, ?_, ?_⟩, ?_⟩
  · rw [run_iteration_snd, hm]
  · exact sorted_getLast_max _ hsorted m hm
  · rintro l rfl s hs
    simp only [run_iteration] at hs
    have := List.of_mem_filter hs
    simpa using this

/-- Concrete stories (published at 7, 3, 9) for the closed instance. -/
def wm_stories : List NewsStory :=
  [sample_story "a" 7, sample_story "b" 3, sample_story "c" 9]

/-- Closed instance of `run_iteration_watermark` at watermark 5 and the
three concrete stories (the ones published at 7 and 9 are published). -/
theorem run_iteration_watermark_witness :
    (run_iteration (some 5) wm_stories).1 ≠ [] ∧
    ((∃ s ∈ (run_iteration (some 5) wm_stories).1,
        (run_iteration (some 5) wm_stories).2 = some s.published_at ∧
        ∀ t ∈ (run_iteration (some 5) wm_stories).1,
          t.published_at ≤ s.published_at) ∧
     ∀ l, (some 5 : Option ℕ) = some l →
       ∀ s ∈ (run_iteration (some 5) wm_stories).1, l < s.published_at) :=
  ⟨by decide, run_iteration_watermark (some 5) wm_stories (by decide)⟩

end CryptoPredict
